import Mathlib

/-!
Verification of the gs_sync repository against its specification.

The development shallowly embeds the decision logic of the repository's
cloud function (`functions/src/index.ts`, `functions/src/utils/gs_utils.ts`,
`functions/src/utils/hash_utils.ts` and the batch-update helpers):

* datasets (`Array<Array<string | number>>`) become `List (List Cell)`;
* the JSON.stringify serialisation used by `generateHash` is embedded as an
  executable character-list encoder, and its injectivity is proved via
  explicit decoding lemmas;
* the HTTP handler `gsSyncFunction` becomes a pure function from the parsed
  request body and an oracle describing the outcomes of the external
  Google-Sheets API calls to the produced response together with the trace
  of collaborator calls it issues;
* the fallible wrappers (`readDataFromSpreadsheet`, `updateDataInSheet`,
  `getSheetSize`) are embedded with their exact try/catch structure.
-/

/-- A spreadsheet cell value. The source datasets have type
`Array<Array<string | number>>`; numeric cells are modelled as integers
(the integer-valued numbers that the sheets API round-trips exactly;
non-integral floating point formatting is outside the embedding). -/
inductive Cell where
| str (s : String)
| num (n : Int)
deriving DecidableEq, Repr

/-- A dataset: an ordered sequence of rows, each an ordered sequence of cells,
exactly as returned by the sheets `values.get` call in the source. -/
abbrev Dataset := List (List Cell)

/-- Lowercase hexadecimal digit character for a value below 16,
as produced by JavaScript's `\uXXXX` escapes. -/
def hexDigitChar (n : Nat) : Char :=
if n < 10 then Char.ofNat (48 + n) else Char.ofNat (87 + n)

/-- JSON escaping of one character, after ECMAScript QuoteJSONString:
this is the behaviour of the `JSON.stringify` call inside the source's
`generateHash` (hash_utils.ts) on each string character. -/
def escChar (c : Char) : List Char :=
if c = '"' then ['\\', '"']
else if c = '\\' then ['\\', '\\']
else if c = '\x08' then ['\\', 'b']
else if c = '\x0c' then ['\\', 'f']
else if c = '\n' then ['\\', 'n']
else if c = '\r' then ['\\', 'r']
else if c = '\t' then ['\\', 't']
else if c.toNat < 32 then ['\\', 'u', '0', '0', hexDigitChar (c.toNat / 16), hexDigitChar (c.toNat % 16)]
else [c]

/-- Decimal digit character. -/
def decDigitChar (n : Nat) : Char := Char.ofNat (48 + n)

/-- Decimal digit characters of a natural number, most significant first,
as `JSON.stringify` prints a non-negative integer. -/
def natChars (n : Nat) : List Char :=
if _h : n < 10 then [decDigitChar n]
else natChars (n / 10) ++ [decDigitChar (n % 10)]
termination_by n
decreasing_by exact Nat.div_lt_self (by omega) (by omega)

/-- JSON encoding of one cell: `JSON.stringify` of a string (quoted and
escaped) or of an integer (decimal, minus sign when negative). -/
def encCell : Cell → List Char
| .str s => '"' :: (s.data.flatMap escChar ++ ['"'])
| .num n => if n < 0 then '-' :: natChars n.natAbs else natChars n.toNat

/-- Comma-separated JSON encodings of the cells of one row,
as `JSON.stringify` lays out array elements. -/
def encCellList : List Cell → List Char
| [] => []
| [c] => encCell c
| c :: c2 :: cs => encCell c ++ ',' :: encCellList (c2 :: cs)

/-- JSON encoding of one row: the bracketed cell list. -/
def encRow (r : List Cell) : List Char := '[' :: (encCellList r ++ [']'])

/-- Comma-separated JSON encodings of the rows of a dataset. -/
def encRowList : Dataset → List Char
| [] => []
| [r] => encRow r
| r :: r2 :: rs => encRow r ++ ',' :: encRowList (r2 :: rs)

/-- JSON encoding of a whole dataset: the bracketed row list.
This is `JSON.stringify(data)` for `data : Array<Array<string | number>>`. -/
def encDataset (d : Dataset) : List Char := '[' :: (encRowList d ++ [']'])

/-- Embeds the source's `generateHash` (hash_utils.ts): the canonical
`JSON.stringify` serialisation of the dataset.  The source feeds this string
to a SHA-256 digest and returns its hex encoding; the digest step is kept
abstract here (identified with its input), since the specification itself
stipulates collision resistance of the digest as a correctness requirement,
i.e. treats that final step as injective. -/
def generateHash (d : Dataset) : String := String.mk (encDataset d)

/-- Value of a lowercase hexadecimal digit character. -/
def hexVal (c : Char) : Nat := if 97 ≤ c.toNat then c.toNat - 87 else c.toNat - 48

/-- Decode a four-hex-digit escape payload (codepoints below 32 only,
which is all the encoder emits). -/
def decodeHex : List Char → Option (Char × List Char)
| a :: b :: c :: d :: r =>
  let v := ((hexVal a * 16 + hexVal b) * 16 + hexVal c) * 16 + hexVal d
  if v < 32 then some (Char.ofNat v, r) else none
| _ => none

/-- Decode the character following a backslash in a JSON string body. -/
def decodeEsc : List Char → Option (Char × List Char)
| [] => none
| e :: r =>
  if e = '"' then some ('"', r)
  else if e = '\\' then some ('\\', r)
  else if e = 'b' then some ('\x08', r)
  else if e = 'f' then some ('\x0c', r)
  else if e = 'n' then some ('\n', r)
  else if e = 'r' then some ('\r', r)
  else if e = 't' then some ('\t', r)
  else if e = 'u' then decodeHex r
  else none

/-- Decode one character of a JSON string body (an unescaped `"` terminates
the body and is rejected here). -/
def decodeHead : List Char → Option (Char × List Char)
| [] => none
| c :: r => if c = '\\' then decodeEsc r else if c = '"' then none else some (c, r)

/-- Decimal digit test on characters. -/
def isDig (c : Char) : Bool := 48 ≤ c.toNat && c.toNat ≤ 57

/-- Value of a list of decimal digit characters, most significant first. -/
def digitsVal (l : List Char) : Nat := l.foldl (fun acc c => acc * 10 + (c.toNat - 48)) 0

/-- Size of a worksheet grid, the source's `SheetSize`
(interfaces/gs_interfaces.ts). -/
structure SheetSize where
  rowCount : Nat
  columnCount : Nat
deriving DecidableEq, Repr

/-- The optional `gridProperties` record of a sheet in a
`spreadsheets.get` response (both counts are optional in the API schema,
the source applies `?? 0` to each). -/
structure GridProps where
  rowCount : Option Nat
  columnCount : Option Nat
deriving DecidableEq, Repr

/-- The optional `properties` record of a sheet entry. -/
structure SheetProps where
  sheetId : Option Int
  gridProperties : Option GridProps
deriving DecidableEq, Repr

/-- One entry of the `sheets` array of a `spreadsheets.get` response. -/
structure SheetEntry where
  properties : Option SheetProps
deriving DecidableEq, Repr

/-- Outcome of the backend `sheets.spreadsheets.get` call inside
`getSheetSize`: either it resolves (with an optional `sheets` array) or it
throws. -/
inductive SizeBackendResult where
| success (sheets : Option (List SheetEntry))
| throwErr
deriving DecidableEq, Repr

/-- The `res.data.sheets?.find((s) => s.properties?.sheetId === worksheetId)`
step of the source's `getSheetSize`. -/
def findSheet (sheets : Option (List SheetEntry)) (worksheetId : Int) : Option SheetEntry :=
match sheets with
| none => none
| some l => l.find? (fun s => (s.properties.bind SheetProps.sheetId) == some worksheetId)

/-- Embeds the source's `getSheetSize` (gs_utils.ts): on a successful backend
query it looks the worksheet up and returns `grid?.rowCount ?? 0` and
`grid?.columnCount ?? 0`; the catch block returns `{rowCount: 0, columnCount: 0}`
when the backend call throws. -/
def getSheetSize (r : SizeBackendResult) (worksheetId : Int) : SheetSize :=
match r with
| .throwErr => ⟨0, 0⟩
| .success sheets =>
  let sheet := findSheet sheets worksheetId
  let grid := sheet.bind fun s => s.properties.bind fun p => p.gridProperties
  ⟨(grid.bind GridProps.rowCount).getD 0, (grid.bind GridProps.columnCount).getD 0⟩

/-- The source's `SheetInfo` interface (interfaces/gs_interfaces.ts).
`firstRow`/`lastRow` are declared as numbers but the handler builds the
record straight from the parsed JSON body, where they may be absent
(the source then relies on `?? ""`), hence `Option`. -/
structure SheetInfo where
  name : String
  id : Int
  firstColumn : String
  lastColumn : String
  firstRow : Option Int
  lastRow : Option Int
deriving DecidableEq, Repr

/-- Embeds `SheetInfoImpl.getReadA1NotationRange` (gs_utils.ts):
`name!firstColumn firstRow:lastColumn lastRow` where an absent
(null/undefined) row bound renders as the empty string via `?? ""`,
and a present bound renders via JavaScript template interpolation. -/
def SheetInfoImpl.getReadA1NotationRange (sheetInfo : SheetInfo) : String :=
  let firstRow := match sheetInfo.firstRow with | none => "" | some n => toString n
  let lastRow := match sheetInfo.lastRow with | none => "" | some n => toString n
  sheetInfo.name ++ "!" ++ sheetInfo.firstColumn ++ firstRow ++ ":"
    ++ sheetInfo.lastColumn ++ lastRow

/-- Outcome of the backend `sheets.spreadsheets.values.get` call inside
`readDataFromSpreadsheet`: a resolved response (status plus optional
`values`) or a thrown error. -/
inductive ReadBackendResult where
| success (status : Nat) (values : Option Dataset)
| throwErr
deriving DecidableEq, Repr

/-- Embeds the source's `readDataFromSpreadsheet` (gs_utils.ts): status 200
returns `values ?? []`; a non-200 status is logged and returns `[]`; a thrown
backend error is rethrown (the only failing outcome). -/
def readDataFromSpreadsheet : ReadBackendResult → Except Unit Dataset
| .success status values => if status == 200 then .ok (values.getD []) else .ok []
| .throwErr => .error ()

/-- The dataset `readDataFromSpreadsheet` produces when it does not throw. -/
def readOkData : ReadBackendResult → Dataset
| .success status values => if status == 200 then values.getD [] else []
| .throwErr => []

/-- The `data` of a successful `values.update` response
(`updatedRows`/`updatedColumns` are optional in the API schema). -/
structure UpdateValuesResponse where
  updatedRows : Option Nat
  updatedColumns : Option Nat
deriving DecidableEq, Repr

/-- Outcome of the backend `sheets.spreadsheets.values.update` call inside
`updateDataInSheet`. -/
inductive WriteBackendResult where
| success (status : Nat) (resp : UpdateValuesResponse)
| throwErr
deriving DecidableEq, Repr

/-- Embeds the source's `updateDataInSheet` (gs_utils.ts): status 200 returns
the response data; a non-200 status is logged and returns null; a thrown
backend error is caught, logged and also returns null — the function never
fails. -/
def updateDataInSheet : WriteBackendResult → Option UpdateValuesResponse
| .success status resp => if status == 200 then some resp else none
| .throwErr => none

/-- Outcome of the `sheets.spreadsheets.batchUpdate` call the handler awaits
directly (no local catch: a thrown error propagates to the handler's catch). -/
inductive BatchBackendResult where
| success
| throwErr
deriving DecidableEq, Repr

/-- A `Schema$Request` of the batch update issued by the sync function:
either the `updateCells` clear (fields `userEnteredValue`, `endRowIndex`
omitted so the clear spans all rows) or an `updateSheetProperties` resize of
one grid dimension, with its `fields` mask string. -/
inductive BatchRequest where
| updateCells (sheetId : Int) (startRowIndex startColumnIndex : Nat)
    (endRowIndex : Option Nat) (endColumnIndex : Nat) (fields : String)
| updateSheetRowCount (sheetId : Int) (rowCount : Nat) (fields : String)
| updateSheetColumnCount (sheetId : Int) (columnCount : Nat) (fields : String)
deriving DecidableEq, Repr

/-- Embeds the pure core of the source's `buildBatchUpdates` (the sizing
planner): given the destination sheet id, the size `getSheetSize` reported,
and the required row/column counts, it pushes a row resize when
`sheetSize.rowCount >= rowCount` fails and a column resize when
`sheetSize.columnCount >= colCount` fails, with the source's `fields` masks.
The same construction is inlined in `gsSyncFunction` (index.ts lines 99-133)
and mirrored by `ensureSheetSize` (gs_utils.ts). -/
def buildBatchUpdates (destinationWorksheetId : Int) (sheetSize : SheetSize)
    (rowCount colCount : Nat) : List BatchRequest :=
  (if sheetSize.rowCount ≥ rowCount then []
   else [BatchRequest.updateSheetRowCount destinationWorksheetId rowCount
          "gridProperties(rowCount)"])
  ++ (if sheetSize.columnCount ≥ colCount then []
      else [BatchRequest.updateSheetColumnCount destinationWorksheetId colCount
             "gridProperties(columnCount)"])

/-- The destination size implied by applying a list of batch requests: each
`updateSheetProperties` request sets the grid dimension named in its fields
mask; the `updateCells` clear leaves the size unchanged. -/
def applyResizes (sz : SheetSize) (reqs : List BatchRequest) : SheetSize :=
reqs.foldl (fun s req =>
  match req with
  | .updateSheetRowCount _ n _ => ⟨n, s.columnCount⟩
  | .updateSheetColumnCount _ n _ => ⟨s.rowCount, n⟩
  | .updateCells _ _ _ _ _ _ => s) sz

/-- The source's `SyncDataRequestBody` (interfaces/request.ts). All fields
are declared required, but the handler runs on whatever JSON body arrives:
it guards the two spreadsheet ids with a falsy check and the row bounds with
`?? ""`, so those four fields are embedded as optional. -/
structure SyncDataRequestBody where
  originWorksheetId : Int
  originWorksheetName : String
  originSpreadsheetName : String
  originWorksheetFirstColumn : String
  originWorksheetLastColumn : String
  originWorksheetFirstRow : Option Int
  originWorksheetLastRow : Option Int
  originSpreadsheetId : Option String
  destinationSpreadsheetId : Option String
  destinationSpreadsheetName : String
  destinationWorksheetId : Int
  destinationWorksheetName : String
deriving DecidableEq, Repr

/-- JavaScript falsiness of an optional string: absent (undefined/null) or
empty, the test `!body.originSpreadsheetId` performs. -/
def strFalsy : Option String → Bool
| none => true
| some s => s.isEmpty

/-- An external collaborator call issued by the handler, in issue order:
the origin `values.get` read, the destination `spreadsheets.get` size query,
the destination `batchUpdate`, and the destination `values.update` write. -/
inductive CollabCall where
| read (range : String) (spreadsheetId : String)
| sizeQuery (spreadsheetId : String) (worksheetId : Int)
| batchUpdate (spreadsheetId : String) (requests : List BatchRequest)
| write (range : String) (values : Dataset) (spreadsheetId : String)
deriving DecidableEq, Repr

/-- An HTTP response: `res.status(...).send(body)` (`res.send` alone is
status 200). -/
structure HttpResp where
  status : Nat
  body : String
deriving DecidableEq, Repr

/-- Oracle fixing the outcome of each backend call of one invocation. -/
structure Backend where
  readResult : ReadBackendResult
  sizeResult : SizeBackendResult
  batchResult : BatchBackendResult
  writeResult : WriteBackendResult
deriving DecidableEq, Repr

/-- `dataFromGs[0]?.length ?? 0`: the column count the handler derives from
the origin dataset — the length of the first row only. -/
def firstRowLen (d : Dataset) : Nat := (d.head?.map List.length).getD 0

/-- The read range the handler builds from the origin descriptor fields of
the body (index.ts lines 31-38). -/
def originReadRange (body : SyncDataRequestBody) : String :=
  SheetInfoImpl.getReadA1NotationRange
    ⟨body.originWorksheetName, body.originWorksheetId, body.originWorksheetFirstColumn,
     body.originWorksheetLastColumn, body.originWorksheetFirstRow, body.originWorksheetLastRow⟩

/-- The `updateCells` clear request the handler always puts first in its
batch update (index.ts lines 84-97): clear `userEnteredValue` from row 0 over
columns 0 to `colCount`, with no `endRowIndex` (all rows). -/
def clearRequest (body : SyncDataRequestBody) (colCount : Nat) : BatchRequest :=
  BatchRequest.updateCells body.destinationWorksheetId 0 0 none colCount "userEnteredValue"

/-- Embeds the source's `gsSyncFunction` handler (index.ts): validate the two
spreadsheet ids, read the origin range, query the destination size, issue one
`batchUpdate` (clear plus resizes), then write the whole origin dataset to
`destinationWorksheetName!originFirstColumn:originLastColumn`; any error
thrown along the way is caught and surfaces as status 500. It returns the
HTTP response and the trace of collaborator calls attempted, in order. -/
def gsSyncFunction (body : SyncDataRequestBody) (be : Backend) :
    HttpResp × List CollabCall :=
  let readRange := originReadRange body
  if strFalsy body.originSpreadsheetId || strFalsy body.destinationSpreadsheetId then
    (⟨400, "Bad Request: Missing originSpreadsheetId or destinationSpreadsheetId"⟩, [])
  else
    let oid := body.originSpreadsheetId.getD ""
    let did := body.destinationSpreadsheetId.getD ""
    match readDataFromSpreadsheet be.readResult with
    | .error _ => (⟨500, "Internal Server Error"⟩, [.read readRange oid])
    | .ok dataFromGs =>
      let rowCount := dataFromGs.length
      let colCount := firstRowLen dataFromGs
      let sheetSize := getSheetSize be.sizeResult body.destinationWorksheetId
      let batchUpdates := clearRequest body colCount
        :: buildBatchUpdates body.destinationWorksheetId sheetSize rowCount colCount
      let callsPre := [CollabCall.read readRange oid,
        CollabCall.sizeQuery did body.destinationWorksheetId,
        CollabCall.batchUpdate did batchUpdates]
      match be.batchResult with
      | .throwErr => (⟨500, "Internal Server Error"⟩, callsPre)
      | .success =>
        let aiNotation := body.destinationWorksheetName ++ "!"
          ++ body.originWorksheetFirstColumn ++ ":" ++ body.originWorksheetLastColumn
        let _writeResp := updateDataInSheet be.writeResult
        (⟨200, "Completed"⟩, callsPre ++ [CollabCall.write aiNotation dataFromGs did])

/-- Modelled from the spec: a structural resize operation of the sizing
planner contract (spec section 4.3), one grid dimension set to a value. -/
inductive ResizeOp where
| rows (n : Nat)
| cols (n : Nat)
deriving DecidableEq, Repr

/-- Modelled from the spec: `planResize(current, {rows, cols})` of spec
section 4.3 — emit a row resize iff `current.rowCount < rows` and a column
resize iff `current.columnCount < cols`. -/
def planResize (cur : SheetSize) (rows cols : Nat) : List ResizeOp :=
  (if cur.rowCount < rows then [ResizeOp.rows rows] else [])
  ++ (if cur.columnCount < cols then [ResizeOp.cols cols] else [])

/-- Modelled from the spec: a collaborator call of the sync decision engine
of spec section 4.4 — an `applyResize` with its operation list, or a
`writeRange` with its address and dataset. -/
inductive EngineCall where
| applyResize (ops : List ResizeOp)
| write (address : String) (values : Dataset)
deriving DecidableEq, Repr

/-- Modelled from the spec: the terminal outcomes of the decision engine that
follow a successful origin/destination read (spec section 4.4). -/
inductive SyncOutcome where
| NoUpdateNeeded
| Completed
deriving DecidableEq, Repr

/-- Modelled from the spec: the plain-text response bodies of spec
section 6. -/
def responseBody : SyncOutcome → String
| .NoUpdateNeeded => "No update needed; data is already synchronized."
| .Completed => "Completed"

/-- Row at index `i` of a dataset, an absent row substituting the empty row,
as spec section 4.4 step 6 prescribes for comparison and hashing. -/
def rowAt (d : Dataset) (i : Nat) : List Cell := (d.get? i).getD []

/-- Per-row fingerprint: `generateHash` applied to one row, i.e. the
canonical JSON serialisation of the row (digest step abstract, as in
`generateHash`). -/
def rowFingerprint (r : List Cell) : String := String.mk (encRow r)

/-- Modelled from the spec: the differing-index computation of spec
section 4.4 step 6 — every index from 0 to `max(len(origin), len(dest)) - 1`
whose per-row fingerprints differ, absent rows substituting an empty row. -/
def differingIndices (origin dest : Dataset) : List Nat :=
  (List.range (max origin.length dest.length)).filter
    (fun i => rowFingerprint (rowAt origin i) != rowFingerprint (rowAt dest i))

/-- Modelled from the spec: the single-row write address
`DestinationSheetName!FirstColumn(rowIndex+1):LastColumn(rowIndex+1)`
(1-based row numbering) of spec section 4.4 step 6. -/
def rowWriteAddr (destName firstCol lastCol : String) (i : Nat) : String :=
  destName ++ "!" ++ firstCol ++ toString (i + 1) ++ ":" ++ lastCol ++ toString (i + 1)

/-- Modelled from the spec: the full column extent of the origin dataset,
used to size the resize plan of spec section 4.4 steps 5 and 6. -/
def originColExtent (d : Dataset) : Nat := (d.map List.length).foldr max 0

/-- Modelled from the spec: the sync decision engine of spec section 4.4
steps 4-6 (the row-diffing implementation that the specification describes is
not among the provided source files; only its hashing helper `generateHash`
and the simpler full-rewrite handler are, so the engine is modelled from the
spec's words). Both datasets have already been read; the engine compares
whole-dataset fingerprints, short-circuits to `NoUpdateNeeded` on equality
with no collaborator calls, does a full rewrite to the destination read
address when the destination is empty, and otherwise resizes (when the plan
is non-empty) and writes each differing row to its own 1-based row address.
Returns the terminal outcome and collaborator calls in issue order. -/
def syncEngine (destReadAddr destName firstCol lastCol : String)
    (origin dest : Dataset) (cur : SheetSize) : SyncOutcome × List EngineCall :=
  if generateHash origin = generateHash dest then (.NoUpdateNeeded, [])
  else
    let plan := planResize cur origin.length (originColExtent origin)
    let resizeCalls : List EngineCall := if plan = [] then [] else [.applyResize plan]
    if dest.isEmpty then
      (.Completed, resizeCalls ++ [.write destReadAddr origin])
    else
      let diffs := differingIndices origin dest
      if diffs = [] then (.Completed, [])
      else
        (.Completed, resizeCalls
          ++ diffs.map (fun i => .write (rowWriteAddr destName firstCol lastCol i)
               [rowAt origin i]))

/-- Whether an engine collaborator call is a write. -/
def isWriteCall : EngineCall → Bool
| .write _ _ => true
| .applyResize _ => false

theorem toNat_decDigitChar {n : Nat} (h : n < 10) : (decDigitChar n).toNat = 48 + n := by
  interval_cases n <;> decide

theorem isDig_decDigitChar {n : Nat} (h : n < 10) : isDig (decDigitChar n) = true := by
  interval_cases n <;> decide

theorem natChars_all_dig (n : Nat) : ∀ c ∈ natChars n, isDig c = true := by
  induction n using natChars.induct with
  | case1 n h =>
    rw [natChars, dif_pos h]
    intro c hc
    simp only [List.mem_singleton] at hc
    subst hc
    exact isDig_decDigitChar h
  | case2 n h ih =>
    rw [natChars, dif_neg h]
    intro c hc
    rcases List.mem_append.mp hc with h1 | h1
    · exact ih c h1
    · simp only [List.mem_singleton] at h1
      subst h1
      exact isDig_decDigitChar (Nat.mod_lt _ (by omega))

theorem natChars_ne_nil (n : Nat) : natChars n ≠ [] := by
  rw [natChars]
  split
  · simp
  · simp

theorem foldl_digits_natChars (n : Nat) :
    ∀ acc : Nat, (natChars n).foldl (fun acc c => acc * 10 + (c.toNat - 48)) acc
      = acc * 10 ^ (natChars n).length + n := by
  induction n using natChars.induct with
  | case1 n h =>
    intro acc
    rw [natChars, dif_pos h]
    simp [toNat_decDigitChar h]
  | case2 n h ih =>
    intro acc
    rw [natChars, dif_neg h]
    rw [List.foldl_append, ih acc]
    have hm : n % 10 < 10 := Nat.mod_lt _ (by omega)
    simp only [List.foldl_cons, List.foldl_nil, List.length_append, List.length_singleton]
    rw [toNat_decDigitChar hm, pow_succ, ← Nat.mul_assoc]
    have hdm := Nat.div_add_mod n 10
    omega

theorem digitsVal_natChars (n : Nat) : digitsVal (natChars n) = n := by
  have := foldl_digits_natChars n 0
  simpa [digitsVal] using this

theorem natChars_injective {m n : Nat} (h : natChars m = natChars n) : m = n := by
  have := digitsVal_natChars m
  rw [h, digitsVal_natChars] at this
  omega

theorem takeWhile_append_all {α : Type} (p : α → Bool) (l r : List α)
    (h : ∀ a ∈ l, p a = true) :
    (l ++ r).takeWhile p = l ++ r.takeWhile p := by
  induction l with
  | nil => simp
  | cons a l ih =>
    have ha : p a = true := h a (List.mem_cons_self a l)
    simp only [List.cons_append, List.takeWhile_cons, ha, if_true]
    rw [ih (fun b hb => h b (List.mem_cons_of_mem a hb))]

theorem natChars_cancel {m n : Nat} {xs ys : List Char}
    (hx : xs.takeWhile isDig = []) (hy : ys.takeWhile isDig = [])
    (h : natChars m ++ xs = natChars n ++ ys) : m = n ∧ xs = ys := by
  have h1 : (natChars m ++ xs).takeWhile isDig = natChars m := by
    rw [takeWhile_append_all isDig _ _ (natChars_all_dig m), hx, List.append_nil]
  have h2 : (natChars n ++ ys).takeWhile isDig = natChars n := by
    rw [takeWhile_append_all isDig _ _ (natChars_all_dig n), hy, List.append_nil]
  have hmn : natChars m = natChars n := by rw [← h1, ← h2, h]
  have : m = n := natChars_injective hmn
  subst this
  exact ⟨rfl, List.append_cancel_left h⟩

theorem hexVal_hexDigitChar {n : Nat} (h : n < 16) : hexVal (hexDigitChar n) = n := by
  interval_cases n <;> decide

theorem char_toNat_injective {c d : Char} (h : c.toNat = d.toNat) : c = d := by
  have h2 := congrArg Char.ofNat h
  rwa [Char.ofNat_toNat, Char.ofNat_toNat] at h2

theorem decodeHead_escChar (c : Char) (rest : List Char) :
    decodeHead (escChar c ++ rest) = some (c, rest) := by
  by_cases h1 : c = '"'
  · subst h1; rfl
  by_cases h2 : c = '\\'
  · subst h2; rfl
  by_cases h3 : c = '\x08'
  · subst h3; rfl
  by_cases h4 : c = '\x0c'
  · subst h4; rfl
  by_cases h5 : c = '\n'
  · subst h5; rfl
  by_cases h6 : c = '\r'
  · subst h6; rfl
  by_cases h7 : c = '\t'
  · subst h7; rfl
  by_cases h8 : c.toNat < 32
  · rw [escChar]
    rw [if_neg h1, if_neg h2, if_neg h3, if_neg h4, if_neg h5, if_neg h6, if_neg h7, if_pos h8]
    show decodeEsc ('u' :: '0' :: '0'
      :: hexDigitChar (c.toNat / 16) :: hexDigitChar (c.toNat % 16) :: rest) = some (c, rest)
    rw [decodeEsc]
    simp only [if_neg (by decide : ¬('u' : Char) = '"'), if_neg (by decide : ¬('u' : Char) = '\\'),
      if_neg (by decide : ¬('u' : Char) = 'b'), if_neg (by decide : ¬('u' : Char) = 'f'),
      if_neg (by decide : ¬('u' : Char) = 'n'), if_neg (by decide : ¬('u' : Char) = 'r'),
      if_neg (by decide : ¬('u' : Char) = 't'), if_pos (rfl : ('u' : Char) = 'u')]
    rw [decodeHex]
    have hd : c.toNat / 16 < 16 := by omega
    have hm : c.toNat % 16 < 16 := Nat.mod_lt _ (by omega)
    rw [hexVal_hexDigitChar hd, hexVal_hexDigitChar hm]
    have h0 : hexVal '0' = 0 := by decide
    rw [h0]
    have hv : ((0 * 16 + 0) * 16 + c.toNat / 16) * 16 + c.toNat % 16 = c.toNat := by
      have := Nat.div_add_mod c.toNat 16
      omega
    simp [hv, h8]
    have hv2 : c.toNat / 16 * 16 + c.toNat % 16 = c.toNat := by omega
    exact ⟨by omega, by rw [hv2, Char.ofNat_toNat]⟩
  · rw [escChar]
    rw [if_neg h1, if_neg h2, if_neg h3, if_neg h4, if_neg h5, if_neg h6, if_neg h7, if_neg h8]
    show decodeHead (c :: rest) = some (c, rest)
    rw [decodeHead]
    rw [if_neg h2, if_neg h1]

theorem decodeHead_quote (x : List Char) : decodeHead ('"' :: x) = none := rfl

theorem encStr_cancel (a : List Char) : ∀ (b : List Char) (x y : List Char),
    a.flatMap escChar ++ '"' :: x = b.flatMap escChar ++ '"' :: y → a = b ∧ x = y := by
  induction a with
  | nil =>
    intro b x y h
    cases b with
    | nil => simpa using h
    | cons c b =>
      exfalso
      rw [List.flatMap_nil, List.nil_append, List.flatMap_cons, List.append_assoc] at h
      have h2 := congrArg decodeHead h
      rw [decodeHead_quote, decodeHead_escChar] at h2
      exact Option.noConfusion h2
  | cons c a ih =>
    intro b x y h
    cases b with
    | nil =>
      exfalso
      rw [List.flatMap_nil, List.nil_append, List.flatMap_cons, List.append_assoc] at h
      have h2 := congrArg decodeHead h
      rw [decodeHead_quote, decodeHead_escChar] at h2
      exact Option.noConfusion h2
    | cons c2 b =>
      rw [List.flatMap_cons, List.append_assoc, List.flatMap_cons (f := escChar),
        List.append_assoc] at h
      have h2 := congrArg decodeHead h
      rw [decodeHead_escChar, decodeHead_escChar] at h2
      have hc : c = c2 := by
        have := congrArg (fun o => (Option.map Prod.fst o).getD 'a') h2
        simpa using this
      subst hc
      have hrest : a.flatMap escChar ++ '"' :: x = b.flatMap escChar ++ '"' :: y := by
        have := congrArg (fun o => (Option.map Prod.snd o).getD []) h2
        simpa using this
      obtain ⟨hab, hxy⟩ := ih b x y hrest
      exact ⟨by rw [hab], hxy⟩

theorem takeWhile_isDig_delim {xs : List Char} (hx : ∃ t, xs = ',' :: t ∨ xs = ']' :: t) :
    xs.takeWhile isDig = [] := by
  obtain ⟨t, h | h⟩ := hx <;> subst h
  · exact List.takeWhile_cons_of_neg (by decide)
  · exact List.takeWhile_cons_of_neg (by decide)

theorem encNum_head (n : Int) :
    ∃ hh tt, encCell (.num n) = hh :: tt ∧ (hh = '-' ∨ isDig hh = true) := by
  by_cases hn : n < 0
  · exact ⟨'-', natChars n.natAbs, by simp [encCell, hn], Or.inl rfl⟩
  · rcases hl : natChars n.toNat with _ | ⟨hh, tt⟩
    · exact absurd hl (natChars_ne_nil _)
    · refine ⟨hh, tt, by simp [encCell, hn, hl], Or.inr ?_⟩
      exact natChars_all_dig n.toNat hh (by rw [hl]; exact List.mem_cons_self _ _)

theorem encCell_head_cases (c : Cell) :
    ∃ hh tt, encCell c = hh :: tt ∧ (hh = '"' ∨ hh = '-' ∨ isDig hh = true) := by
  cases c with
  | str s => exact ⟨'"', _, rfl, Or.inl rfl⟩
  | num n =>
    obtain ⟨hh, tt, he, hc⟩ := encNum_head n
    exact ⟨hh, tt, he, Or.inr hc⟩

theorem delim_ne_encCell_head {a : Char} (ha : a = ',' ∨ a = ']') (c : Cell)
    {l t : List Char} (h : a :: l = encCell c ++ t) : False := by
  obtain ⟨hh, tt, he, hcase⟩ := encCell_head_cases c
  rw [he, List.cons_append] at h
  injection h with hah _
  subst hah
  rcases ha with h2 | h2 <;> subst h2 <;>
    rcases hcase with hq | hq | hq <;> exact absurd hq (by decide)

theorem encCell_cancel {c c2 : Cell} {xs ys : List Char}
    (hx : ∃ t, xs = ',' :: t ∨ xs = ']' :: t) (hy : ∃ t, ys = ',' :: t ∨ ys = ']' :: t)
    (h : encCell c ++ xs = encCell c2 ++ ys) : c = c2 ∧ xs = ys := by
  cases c with
  | str s =>
    cases c2 with
    | str s2 =>
      simp only [encCell, List.cons_append, List.append_assoc, List.singleton_append] at h
      injection h with _ h2
      obtain ⟨hd, hxy⟩ := encStr_cancel s.data s2.data xs ys h2
      have hs : s = s2 := congrArg String.mk hd
      exact ⟨by rw [hs], hxy⟩
    | num n =>
      exfalso
      obtain ⟨hh, tt, he, hcase⟩ := encNum_head n
      rw [he, List.cons_append] at h
      simp only [encCell, List.cons_append] at h
      injection h with h1 _
      rcases hcase with hq | hq
      · rw [← h1] at hq; exact absurd hq (by decide)
      · rw [← h1] at hq; exact absurd hq (by decide)
  | num n =>
    cases c2 with
    | str s2 =>
      exfalso
      obtain ⟨hh, tt, he, hcase⟩ := encNum_head n
      rw [he, List.cons_append] at h
      simp only [encCell, List.cons_append] at h
      injection h with h1 _
      rcases hcase with hq | hq
      · rw [h1] at hq; exact absurd hq (by decide)
      · rw [h1] at hq; exact absurd hq (by decide)
    | num n2 =>
      by_cases hn : n < 0 <;> by_cases hn2 : n2 < 0
      · simp only [encCell, if_pos hn, if_pos hn2, List.cons_append] at h
        injection h with _ h2
        obtain ⟨habs, hxy⟩ :=
          natChars_cancel (takeWhile_isDig_delim hx) (takeWhile_isDig_delim hy) h2
        have hnn : n = n2 := by omega
        exact ⟨by rw [hnn], hxy⟩
      · exfalso
        simp only [encCell, if_pos hn, if_neg hn2, List.cons_append] at h
        rcases hl : natChars n2.toNat with _ | ⟨hh, tt⟩
        · exact absurd hl (natChars_ne_nil _)
        · rw [hl, List.cons_append] at h
          injection h with h1 _
          have hd : isDig hh = true :=
            natChars_all_dig n2.toNat hh (by rw [hl]; exact List.mem_cons_self _ _)
          rw [← h1] at hd
          exact absurd hd (by decide)
      · exfalso
        simp only [encCell, if_neg hn, if_pos hn2, List.cons_append] at h
        rcases hl : natChars n.toNat with _ | ⟨hh, tt⟩
        · exact absurd hl (natChars_ne_nil _)
        · rw [hl, List.cons_append] at h
          injection h with h1 _
          have hd : isDig hh = true :=
            natChars_all_dig n.toNat hh (by rw [hl]; exact List.mem_cons_self _ _)
          rw [h1] at hd
          exact absurd hd (by decide)
      · simp only [encCell, if_neg hn, if_neg hn2] at h
        obtain ⟨habs, hxy⟩ :=
          natChars_cancel (takeWhile_isDig_delim hx) (takeWhile_isDig_delim hy) h
        have hnn : n = n2 := by omega
        exact ⟨by rw [hnn], hxy⟩

theorem encCellList_cancel (r : List Cell) : ∀ (r2 : List Cell) (x y : List Char),
    encCellList r ++ ']' :: x = encCellList r2 ++ ']' :: y → r = r2 ∧ x = y := by
  induction r with
  | nil =>
    intro r2 x y h
    cases r2 with
    | nil => simpa using h
    | cons c2 rs2 =>
      exfalso
      cases rs2 with
      | nil =>
        have h2 : (']' :: x : List Char) = encCell c2 ++ ']' :: y := by
          simpa [encCellList] using h
        exact delim_ne_encCell_head (Or.inr rfl) c2 h2
      | cons c3 rs3 =>
        have h2 : (']' :: x : List Char)
            = encCell c2 ++ ',' :: (encCellList (c3 :: rs3) ++ ']' :: y) := by
          simpa [encCellList, List.append_assoc] using h
        exact delim_ne_encCell_head (Or.inr rfl) c2 h2
  | cons c rs ih =>
    intro r2 x y h
    cases r2 with
    | nil =>
      exfalso
      cases rs with
      | nil =>
        have h2 : (']' :: y : List Char) = encCell c ++ ']' :: x := by
          simpa [encCellList] using h.symm
        exact delim_ne_encCell_head (Or.inr rfl) c h2
      | cons c3 rs3 =>
        have h2 : (']' :: y : List Char)
            = encCell c ++ ',' :: (encCellList (c3 :: rs3) ++ ']' :: x) := by
          simpa [encCellList, List.append_assoc] using h.symm
        exact delim_ne_encCell_head (Or.inr rfl) c h2
    | cons c2 rs2 =>
      cases rs with
      | nil =>
        cases rs2 with
        | nil =>
          have h2 : encCell c ++ ']' :: x = encCell c2 ++ ']' :: y := by
            simpa [encCellList] using h
          obtain ⟨hc, hxy⟩ := encCell_cancel ⟨x, Or.inr rfl⟩ ⟨y, Or.inr rfl⟩ h2
          refine ⟨by rw [hc], ?_⟩
          injection hxy
        | cons c3 rs3 =>
          exfalso
          have h2 : encCell c ++ ']' :: x
              = encCell c2 ++ ',' :: (encCellList (c3 :: rs3) ++ ']' :: y) := by
            simpa [encCellList, List.append_assoc] using h
          obtain ⟨_, hxy⟩ := encCell_cancel ⟨x, Or.inr rfl⟩ ⟨_, Or.inl rfl⟩ h2
          simp at hxy
      | cons c3 rs3 =>
        cases rs2 with
        | nil =>
          exfalso
          have h2 : encCell c2 ++ ']' :: y
              = encCell c ++ ',' :: (encCellList (c3 :: rs3) ++ ']' :: x) := by
            simpa [encCellList, List.append_assoc] using h.symm
          obtain ⟨_, hxy⟩ := encCell_cancel ⟨y, Or.inr rfl⟩ ⟨_, Or.inl rfl⟩ h2
          simp at hxy
        | cons c4 rs4 =>
          have h2 : encCell c ++ ',' :: (encCellList (c3 :: rs3) ++ ']' :: x)
              = encCell c2 ++ ',' :: (encCellList (c4 :: rs4) ++ ']' :: y) := by
            simpa [encCellList, List.append_assoc] using h
          obtain ⟨hc, hrest⟩ := encCell_cancel ⟨_, Or.inl rfl⟩ ⟨_, Or.inl rfl⟩ h2
          have h3 : encCellList (c3 :: rs3) ++ ']' :: x
              = encCellList (c4 :: rs4) ++ ']' :: y := by
            injection hrest
          obtain ⟨hr, hxy⟩ := ih (c4 :: rs4) x y h3
          exact ⟨by rw [hc, hr], hxy⟩

theorem encRow_cancel {r r2 : List Cell} {xs ys : List Char}
    (h : encRow r ++ xs = encRow r2 ++ ys) : r = r2 ∧ xs = ys := by
  simp only [encRow, List.cons_append, List.append_assoc, List.singleton_append] at h
  injection h with _ h2
  exact encCellList_cancel r r2 xs ys h2

theorem delim_ne_encRow_head {a : Char} (ha : a = ',' ∨ a = ']') (r : List Cell)
    {l t : List Char} (h : a :: l = encRow r ++ t) : False := by
  rw [encRow, List.cons_append] at h
  injection h with h1 _
  rcases ha with h2 | h2 <;> rw [h2] at h1 <;> exact absurd h1 (by decide)

theorem encRowList_cancel (d : Dataset) : ∀ (d2 : Dataset) (x y : List Char),
    encRowList d ++ ']' :: x = encRowList d2 ++ ']' :: y → d = d2 ∧ x = y := by
  induction d with
  | nil =>
    intro d2 x y h
    cases d2 with
    | nil => simpa using h
    | cons r2 ds2 =>
      exfalso
      cases ds2 with
      | nil =>
        have h2 : (']' :: x : List Char) = encRow r2 ++ ']' :: y := by
          simpa [encRowList] using h
        exact delim_ne_encRow_head (Or.inr rfl) r2 h2
      | cons r3 ds3 =>
        have h2 : (']' :: x : List Char)
            = encRow r2 ++ ',' :: (encRowList (r3 :: ds3) ++ ']' :: y) := by
          simpa [encRowList, List.append_assoc] using h
        exact delim_ne_encRow_head (Or.inr rfl) r2 h2
  | cons r ds ih =>
    intro d2 x y h
    cases d2 with
    | nil =>
      exfalso
      cases ds with
      | nil =>
        have h2 : (']' :: y : List Char) = encRow r ++ ']' :: x := by
          simpa [encRowList] using h.symm
        exact delim_ne_encRow_head (Or.inr rfl) r h2
      | cons r3 ds3 =>
        have h2 : (']' :: y : List Char)
            = encRow r ++ ',' :: (encRowList (r3 :: ds3) ++ ']' :: x) := by
          simpa [encRowList, List.append_assoc] using h.symm
        exact delim_ne_encRow_head (Or.inr rfl) r h2
    | cons r2 ds2 =>
      cases ds with
      | nil =>
        cases ds2 with
        | nil =>
          have h2 : encRow r ++ ']' :: x = encRow r2 ++ ']' :: y := by
            simpa [encRowList] using h
          obtain ⟨hr, hxy⟩ := encRow_cancel h2
          refine ⟨by rw [hr], ?_⟩
          injection hxy
        | cons r3 ds3 =>
          exfalso
          have h2 : encRow r ++ ']' :: x
              = encRow r2 ++ ',' :: (encRowList (r3 :: ds3) ++ ']' :: y) := by
            simpa [encRowList, List.append_assoc] using h
          obtain ⟨_, hxy⟩ := encRow_cancel h2
          simp at hxy
      | cons r3 ds3 =>
        cases ds2 with
        | nil =>
          exfalso
          have h2 : encRow r2 ++ ']' :: y
              = encRow r ++ ',' :: (encRowList (r3 :: ds3) ++ ']' :: x) := by
            simpa [encRowList, List.append_assoc] using h.symm
          obtain ⟨_, hxy⟩ := encRow_cancel h2
          simp at hxy
        | cons r4 ds4 =>
          have h2 : encRow r ++ ',' :: (encRowList (r3 :: ds3) ++ ']' :: x)
              = encRow r2 ++ ',' :: (encRowList (r4 :: ds4) ++ ']' :: y) := by
            simpa [encRowList, List.append_assoc] using h
          obtain ⟨hr, hrest⟩ := encRow_cancel h2
          have h3 : encRowList (r3 :: ds3) ++ ']' :: x
              = encRowList (r4 :: ds4) ++ ']' :: y := by
            injection hrest
          obtain ⟨hd, hxy⟩ := ih (r4 :: ds4) x y h3
          exact ⟨by rw [hr, hd], hxy⟩

theorem encDataset_injective {d d2 : Dataset} (h : encDataset d = encDataset d2) : d = d2 := by
  simp only [encDataset] at h
  injection h with _ h2
  have h3 : encRowList d ++ ']' :: ([] : List Char) = encRowList d2 ++ ']' :: [] := by
    simpa using h2
  exact (encRowList_cancel d d2 [] [] h3).1

theorem generateHash_injective {d d2 : Dataset} (h : generateHash d = generateHash d2) :
    d = d2 := by
  have h2 : encDataset d = encDataset d2 := congrArg String.data h
  exact encDataset_injective h2

theorem encRow_injective {r r2 : List Cell} (h : encRow r = encRow r2) : r = r2 := by
  have h2 : encRow r ++ ([] : List Char) = encRow r2 ++ [] := by simpa using h
  exact (encRow_cancel h2).1

theorem rowFingerprint_injective {r r2 : List Cell}
    (h : rowFingerprint r = rowFingerprint r2) : r = r2 :=
  encRow_injective (congrArg String.data h)

/-- C6: for all datasets A and B the whole-dataset fingerprint of A equals
that of B if and only if A and B are structurally identical (same row count,
same cell values and ordering within each row, same row lengths — i.e. equal
as lists of rows); consequently any change to a single cell, or any row
reordering that changes the row sequence, changes the fingerprint. -/
theorem generateHash_eq_iff (A B : Dataset) : generateHash A = generateHash B ↔ A = B :=
  ⟨generateHash_injective, fun h => by rw [h]⟩

/-- C4: the sizing planner emits a row resize iff the current row count is
below the required one and a column resize iff the current column count is
below the required one; it emits at most two requests, and every emitted
request sets its dimension to a value strictly greater than the current one
(it never shrinks). -/
theorem buildBatchUpdates_spec (sid : Int) (sz : SheetSize) (r c : Nat) :
    ((∃ f, BatchRequest.updateSheetRowCount sid r f ∈ buildBatchUpdates sid sz r c)
        ↔ sz.rowCount < r)
    ∧ ((∃ f, BatchRequest.updateSheetColumnCount sid c f ∈ buildBatchUpdates sid sz r c)
        ↔ sz.columnCount < c)
    ∧ (buildBatchUpdates sid sz r c).length ≤ 2
    ∧ (∀ sid2 n f, BatchRequest.updateSheetRowCount sid2 n f ∈ buildBatchUpdates sid sz r c
        → sz.rowCount < n)
    ∧ (∀ sid2 n f, BatchRequest.updateSheetColumnCount sid2 n f ∈ buildBatchUpdates sid sz r c
        → sz.columnCount < n) := by
  refine ⟨?_, ?_, ?_, ?_, ?_⟩ <;>
    (by_cases h1 : sz.rowCount ≥ r <;> by_cases h2 : sz.columnCount ≥ c <;>
      simp [buildBatchUpdates, h1, h2] <;> intros <;> omega)

/-- C5: the sizing planner is idempotent — rerunning it against the size
implied by applying its own output yields no further requests. -/
theorem buildBatchUpdates_idempotent (sid : Int) (sz : SheetSize) (r c : Nat) :
    buildBatchUpdates sid (applyResizes sz (buildBatchUpdates sid sz r c)) r c = [] := by
  by_cases h1 : sz.rowCount ≥ r <;> by_cases h2 : sz.columnCount ≥ c <;>
    simp [buildBatchUpdates, applyResizes, h1, h2]

/-- C7 counterexample: a descriptor whose row bounds are present but zero
does not render them as empty strings — the resolver produces `Sheet1!A0:C0`,
not the open-ended `Sheet1!A:C` the claim asserts (the source's `?? ""`
treats only null/undefined as absent, not the number 0). -/
theorem getReadA1NotationRange_zero_bound_not_empty :
    SheetInfoImpl.getReadA1NotationRange ⟨"Sheet1", 0, "A", "C", some 0, some 0⟩
        = "Sheet1!A0:C0"
    ∧ SheetInfoImpl.getReadA1NotationRange ⟨"Sheet1", 0, "A", "C", some 0, some 0⟩
        ≠ "Sheet1!A:C" := by
  exact ⟨by decide, by decide⟩

/-- C7 (amended): the range resolver is a deterministic total function;
a descriptor whose row bounds are absent (null/undefined) renders them as
empty strings, producing the open-ended `Name!First:Last` address, while a
zero row bound is rendered literally as the digit 0, producing
`Name!First0:Last0`. -/
theorem getReadA1NotationRange_bounds (si : SheetInfo) :
    (si.firstRow = none → si.lastRow = none →
      SheetInfoImpl.getReadA1NotationRange si
        = si.name ++ "!" ++ si.firstColumn ++ ":" ++ si.lastColumn)
    ∧ (si.firstRow = some 0 → si.lastRow = some 0 →
      SheetInfoImpl.getReadA1NotationRange si
        = si.name ++ "!" ++ si.firstColumn ++ "0" ++ ":" ++ si.lastColumn ++ "0") := by
  constructor
  · intro h1 h2
    simp [SheetInfoImpl.getReadA1NotationRange, h1, h2]
  · intro h1 h2
    simp only [SheetInfoImpl.getReadA1NotationRange, h1, h2]
    rw [show toString (0 : Int) = "0" from by decide]

/-- Witness for C7 (amended) at a concrete descriptor with absent bounds. -/
theorem getReadA1NotationRange_bounds_witness :
    SheetInfoImpl.getReadA1NotationRange ⟨"S", 1, "A", "C", none, none⟩ = "S!A:C" := by
  have h := (getReadA1NotationRange_bounds ⟨"S", 1, "A", "C", none, none⟩).1 rfl rfl
  exact h.trans (by decide)

/-- C8: a request missing `originSpreadsheetId` or `destinationSpreadsheetId`
is rejected with HTTP 400 and the handler issues no collaborator call at all. -/
theorem gsSync_missing_id_rejected (body : SyncDataRequestBody) (be : Backend)
    (h : body.originSpreadsheetId = none ∨ body.destinationSpreadsheetId = none) :
    gsSyncFunction body be
      = (⟨400, "Bad Request: Missing originSpreadsheetId or destinationSpreadsheetId"⟩, []) := by
  rcases h with h | h <;> simp [gsSyncFunction, strFalsy, h]

/-- Witness for C8 at a concrete request missing the destination id. -/
theorem gsSync_missing_id_rejected_witness :
    gsSyncFunction ⟨1, "o", "os", "A", "C", none, none, some "oid", none, "ds", 2, "D"⟩
        ⟨.success 200 (some [[Cell.num 1]]), .success (some []), .success,
         .success 200 ⟨some 1, some 1⟩⟩
      = (⟨400, "Bad Request: Missing originSpreadsheetId or destinationSpreadsheetId"⟩, []) :=
  gsSync_missing_id_rejected _ _ (Or.inr rfl)

/-- C9 counterexample: when the backend query throws, `getSheetSize` does not
propagate any failure — it returns the plain value `{rowCount 0, columnCount 0}`,
indistinguishable from the worksheet-not-found result. -/
theorem getSheetSize_throw_swallowed :
    getSheetSize SizeBackendResult.throwErr 7 = ⟨0, 0⟩
    ∧ getSheetSize (SizeBackendResult.success (some [])) 7
        = getSheetSize SizeBackendResult.throwErr 7 :=
  ⟨rfl, rfl⟩

/-- C9 (amended): `getSheetSize` returns `{0, 0}` without throwing both when
the requested worksheet is not found and when the backend query itself fails;
query failures are caught in the function's catch block and never propagated. -/
theorem getSheetSize_zero_cases (r : SizeBackendResult) (wid : Int) :
    (r = SizeBackendResult.throwErr → getSheetSize r wid = ⟨0, 0⟩)
    ∧ (∀ os, r = SizeBackendResult.success os → findSheet os wid = none →
        getSheetSize r wid = ⟨0, 0⟩) := by
  constructor
  · intro h
    subst h
    rfl
  · intro os h hf
    subst h
    simp [getSheetSize, hf]

/-- Witness for C9 (amended) at a thrown backend query. -/
theorem getSheetSize_zero_cases_witness :
    getSheetSize SizeBackendResult.throwErr 3 = ⟨0, 0⟩ :=
  (getSheetSize_zero_cases SizeBackendResult.throwErr 3).1 rfl

theorem readDataFromSpreadsheet_ok (r : ReadBackendResult)
    (h : r ≠ ReadBackendResult.throwErr) :
    readDataFromSpreadsheet r = .ok (readOkData r) := by
  cases r with
  | success st v => by_cases hst : st == 200 <;> simp [readDataFromSpreadsheet, readOkData, hst]
  | throwErr => exact absurd rfl h

/-- C2 counterexample: with valid identifiers, a successful read, size query
and batch update but a write backend that throws, the handler still answers
HTTP 200 "Completed" — a failed write does yield the success response,
because `updateDataInSheet` catches the error and returns null, which the
handler never inspects. -/
theorem gsSync_failed_write_completes :
    (Backend.writeResult ⟨.success 200 (some [[Cell.num 1]]), .success (some []), .success,
        .throwErr⟩ = WriteBackendResult.throwErr)
    ∧ (gsSyncFunction ⟨1, "o", "os", "A", "C", none, none, some "oid", some "did", "ds", 2, "D"⟩
        ⟨.success 200 (some [[Cell.num 1]]), .success (some []), .success, .throwErr⟩).1
      = ⟨200, "Completed"⟩ :=
  ⟨rfl, rfl⟩

/-- C2 (amended): with valid identifiers, a thrown origin read aborts the
pipeline as HTTP 500 with the generic message, and so does a thrown
batchUpdate (the clear/resize step); but a failing write does not — once the
batch update succeeds the handler answers HTTP 200 "Completed" regardless of
the write backend's outcome, since `updateDataInSheet` swallows its own
failures and returns null. -/
theorem gsSync_failure_semantics (body : SyncDataRequestBody) (be : Backend)
    (h1 : strFalsy body.originSpreadsheetId = false)
    (h2 : strFalsy body.destinationSpreadsheetId = false) :
    (be.readResult = ReadBackendResult.throwErr →
      (gsSyncFunction body be).1 = ⟨500, "Internal Server Error"⟩)
    ∧ (be.readResult ≠ ReadBackendResult.throwErr →
        be.batchResult = BatchBackendResult.throwErr →
        (gsSyncFunction body be).1 = ⟨500, "Internal Server Error"⟩)
    ∧ (be.readResult ≠ ReadBackendResult.throwErr →
        be.batchResult = BatchBackendResult.success →
        (gsSyncFunction body be).1 = ⟨200, "Completed"⟩) := by
  refine ⟨?_, ?_, ?_⟩
  · intro hr
    simp [gsSyncFunction, h1, h2, hr, readDataFromSpreadsheet]
  · intro hr hb
    have hok := readDataFromSpreadsheet_ok be.readResult hr
    simp [gsSyncFunction, h1, h2, hok, hb]
  · intro hr hb
    have hok := readDataFromSpreadsheet_ok be.readResult hr
    simp [gsSyncFunction, h1, h2, hok, hb]

/-- Witness for C2 (amended): at a concrete valid request whose write backend
throws, the third branch gives the 200 "Completed" response. -/
theorem gsSync_failure_semantics_witness :
    (gsSyncFunction ⟨1, "o", "os", "A", "C", none, none, some "oid", some "did", "ds", 2, "D"⟩
        ⟨.success 200 (some [[Cell.num 2]]), .success (some []), .success, .throwErr⟩).1
      = ⟨200, "Completed"⟩ :=
  (gsSync_failure_semantics
      ⟨1, "o", "os", "A", "C", none, none, some "oid", some "did", "ds", 2, "D"⟩
      ⟨.success 200 (some [[Cell.num 2]]), .success (some []), .success, .throwErr⟩
      rfl rfl).2.2 (by decide) rfl

theorem colResize_mem_buildBatchUpdates {sid0 sid : Int} {sz : SheetSize} {r c n : Nat}
    {f : String}
    (h : BatchRequest.updateSheetColumnCount sid n f ∈ buildBatchUpdates sid0 sz r c) :
    n = c := by
  revert h
  by_cases h1 : sz.rowCount ≥ r <;> by_cases h2 : sz.columnCount ≥ c <;>
    simp [buildBatchUpdates, h1, h2] <;> intros <;> omega

/-- C10: for every request that passes identifier validation and whose origin
read succeeds, the handler issues a batchUpdate to the destination
spreadsheet whose request list begins with an `updateCells` clear of
`userEnteredValue` from row 0 over columns 0 to `colCount` with no end row
(all rows), where `colCount` is the length of the origin dataset's first row
only (`firstRowLen`, 0 when the origin is empty) — the destination is cleared
on every such sync, even when no resize is needed, and any column resize in
the same batch uses that same first-row-derived extent, so ragged rows longer
than the first row never enlarge the cleared or resized column extent. -/
theorem gsSync_always_clears_first (body : SyncDataRequestBody) (be : Backend)
    (h1 : strFalsy body.originSpreadsheetId = false)
    (h2 : strFalsy body.destinationSpreadsheetId = false)
    (h3 : be.readResult ≠ ReadBackendResult.throwErr) :
    (gsSyncFunction body be).2
      = CollabCall.read (originReadRange body) (body.originSpreadsheetId.getD "")
        :: CollabCall.sizeQuery (body.destinationSpreadsheetId.getD "")
             body.destinationWorksheetId
        :: CollabCall.batchUpdate (body.destinationSpreadsheetId.getD "")
             (BatchRequest.updateCells body.destinationWorksheetId 0 0 none
                (firstRowLen (readOkData be.readResult)) "userEnteredValue"
              :: buildBatchUpdates body.destinationWorksheetId
                   (getSheetSize be.sizeResult body.destinationWorksheetId)
                   (readOkData be.readResult).length (firstRowLen (readOkData be.readResult)))
        :: (match be.batchResult with
            | .throwErr => []
            | .success => [CollabCall.write (body.destinationWorksheetName ++ "!"
                ++ body.originWorksheetFirstColumn ++ ":" ++ body.originWorksheetLastColumn)
                (readOkData be.readResult) (body.destinationSpreadsheetId.getD "")])
    ∧ (∀ sid n f, BatchRequest.updateSheetColumnCount sid n f
          ∈ buildBatchUpdates body.destinationWorksheetId
              (getSheetSize be.sizeResult body.destinationWorksheetId)
              (readOkData be.readResult).length (firstRowLen (readOkData be.readResult))
        → n = firstRowLen (readOkData be.readResult)) := by
  have hok := readDataFromSpreadsheet_ok be.readResult h3
  refine ⟨?_, fun sid n f hmem => colResize_mem_buildBatchUpdates hmem⟩
  cases hbr : be.batchResult with
  | throwErr => simp [gsSyncFunction, h1, h2, hok, hbr, clearRequest]
  | success => simp [gsSyncFunction, h1, h2, hok, hbr, clearRequest]

/-- A concrete valid request body used to witness the handler theorems. -/
def sampleBody : SyncDataRequestBody :=
  ⟨1, "o", "os", "A", "C", none, none, some "oid", some "did", "ds", 2, "D"⟩

/-- A concrete all-successful backend whose origin read returns a ragged
dataset (first row one cell, second row two cells). -/
def sampleBackend : Backend :=
  ⟨.success 200 (some [[Cell.num 1], [Cell.num 1, Cell.num 2]]),
   .success (some []), .success, .success 200 ⟨some 1, some 1⟩⟩

/-- Witness for C10 at the sample request: the batch opens with the clear
over one column (the first-row length, though the second row is longer). -/
theorem gsSync_always_clears_first_witness :
    (gsSyncFunction sampleBody sampleBackend).2
      = CollabCall.read (originReadRange sampleBody) "oid"
        :: CollabCall.sizeQuery "did" 2
        :: CollabCall.batchUpdate "did"
             (BatchRequest.updateCells 2 0 0 none
                (firstRowLen (readOkData sampleBackend.readResult)) "userEnteredValue"
              :: buildBatchUpdates 2 (getSheetSize sampleBackend.sizeResult 2)
                   (readOkData sampleBackend.readResult).length
                   (firstRowLen (readOkData sampleBackend.readResult)))
        :: [CollabCall.write "D!A:C" (readOkData sampleBackend.readResult) "did"]
    ∧ 1 = firstRowLen (readOkData sampleBackend.readResult) :=
  ⟨(gsSync_always_clears_first sampleBody sampleBackend rfl rfl (by decide)).1,
   (gsSync_always_clears_first sampleBody sampleBackend rfl rfl (by decide)).2
     2 1 "gridProperties(columnCount)" (by decide)⟩

/-- Witness for C4 at a concrete current size and requirement: the planner of
a 3x3 sheet asked for 5x2 stays within two requests, and its emitted row
resize grows the row count strictly. -/
theorem buildBatchUpdates_spec_witness :
    (buildBatchUpdates 1 ⟨3, 3⟩ 5 2).length ≤ 2 ∧ (3 : Nat) < 5 :=
  ⟨(buildBatchUpdates_spec 1 ⟨3, 3⟩ 5 2).2.2.1,
   (buildBatchUpdates_spec 1 ⟨3, 3⟩ 5 2).2.2.2.1 1 5 "gridProperties(rowCount)" (by decide)⟩

/-- C1: syncing a dataset against itself (both reads return the same D)
terminates in `NoUpdateNeeded`, whose response body is the documented
plain-text message, and the engine issues zero write and zero resize
collaborator calls. -/
theorem syncEngine_self_noUpdate (destReadAddr destName firstCol lastCol : String)
    (D : Dataset) (cur : SheetSize) :
    syncEngine destReadAddr destName firstCol lastCol D D cur
        = (SyncOutcome.NoUpdateNeeded, [])
    ∧ responseBody SyncOutcome.NoUpdateNeeded
        = "No update needed; data is already synchronized." :=
  ⟨by simp [syncEngine], rfl⟩

theorem range_filter_two {n : Nat} (h : 5 < n) :
    (List.range n).filter (fun i => decide (i = 2 ∨ i = 5)) = [2, 5] := by
  induction n, h using Nat.le_induction with
  | base => decide
  | succ n hn ih =>
    rw [List.range_succ, List.filter_append, ih]
    have hne : ¬(n = 2 ∨ n = 5) := by omega
    simp [hne]

/-- C3: for origin and non-empty destination of equal length differing
exactly in rows 2 and 5, the engine computes the differing-index set
`[2, 5]` and issues exactly two write collaborator calls, each addressed to
its own 1-based single-row range `destName!firstCol(i+1):lastCol(i+1)`,
writing no other rows. -/
theorem syncEngine_sparse_two_writes (destReadAddr destName firstCol lastCol : String)
    (origin dest : Dataset) (cur : SheetSize)
    (hlen : origin.length = dest.length) (h5 : 5 < origin.length)
    (hdiff : ∀ i, i < origin.length → (rowAt origin i ≠ rowAt dest i ↔ (i = 2 ∨ i = 5))) :
    differingIndices origin dest = [2, 5]
    ∧ (syncEngine destReadAddr destName firstCol lastCol origin dest cur).2.filter isWriteCall
      = [EngineCall.write (rowWriteAddr destName firstCol lastCol 2) [rowAt origin 2],
         EngineCall.write (rowWriteAddr destName firstCol lastCol 5) [rowAt origin 5]] := by
  have hdi : differingIndices origin dest = [2, 5] := by
    unfold differingIndices
    rw [← hlen, max_self]
    have hcong : ∀ i ∈ List.range origin.length,
        (rowFingerprint (rowAt origin i) != rowFingerprint (rowAt dest i))
          = decide (i = 2 ∨ i = 5) := by
      intro i hi
      rw [List.mem_range] at hi
      by_cases heq : rowAt origin i = rowAt dest i
      · have hnot : ¬(i = 2 ∨ i = 5) := fun hc => ((hdiff i hi).mpr hc) heq
        rw [heq]
        simp [hnot]
      · have hf : rowFingerprint (rowAt origin i) ≠ rowFingerprint (rowAt dest i) :=
          fun hc => heq (rowFingerprint_injective hc)
        have hd2 : i = 2 ∨ i = 5 := (hdiff i hi).mp heq
        simp [bne_iff_ne, hf, hd2]
    rw [List.filter_congr hcong]
    exact range_filter_two h5
  have hne : origin ≠ dest := by
    intro hc
    exact ((hdiff 2 (by omega)).mpr (Or.inl rfl)) (by rw [hc])
  have hhash : generateHash origin ≠ generateHash dest :=
    fun hc => hne (generateHash_injective hc)
  have hdne : dest.isEmpty = false := by
    cases hd : dest with
    | nil =>
      exfalso
      rw [hd, List.length_nil] at hlen
      omega
    | cons a l => rfl
  refine ⟨hdi, ?_⟩
  simp only [syncEngine, if_neg hhash, hdne, Bool.false_eq_true, if_false, hdi]
  split
  · rename_i hcontra
    exact absurd hcontra (by simp)
  · split <;> simp [isWriteCall]

/-- Witness for C3 at concrete six-row datasets differing exactly in rows 2
and 5. -/
theorem syncEngine_sparse_two_writes_witness :
    differingIndices
        [[Cell.num 0], [Cell.num 0], [Cell.num 1], [Cell.num 0], [Cell.num 0], [Cell.num 2]]
        [[Cell.num 0], [Cell.num 0], [Cell.num 3], [Cell.num 0], [Cell.num 0], [Cell.num 4]]
      = [2, 5]
    ∧ (syncEngine "ds!A:C" "D" "A" "C"
        [[Cell.num 0], [Cell.num 0], [Cell.num 1], [Cell.num 0], [Cell.num 0], [Cell.num 2]]
        [[Cell.num 0], [Cell.num 0], [Cell.num 3], [Cell.num 0], [Cell.num 0], [Cell.num 4]]
        ⟨0, 0⟩).2.filter isWriteCall
      = [EngineCall.write (rowWriteAddr "D" "A" "C" 2)
          [rowAt [[Cell.num 0], [Cell.num 0], [Cell.num 1], [Cell.num 0], [Cell.num 0],
            [Cell.num 2]] 2],
         EngineCall.write (rowWriteAddr "D" "A" "C" 5)
          [rowAt [[Cell.num 0], [Cell.num 0], [Cell.num 1], [Cell.num 0], [Cell.num 0],
            [Cell.num 2]] 5]] :=
  syncEngine_sparse_two_writes "ds!A:C" "D" "A" "C"
    [[Cell.num 0], [Cell.num 0], [Cell.num 1], [Cell.num 0], [Cell.num 0], [Cell.num 2]]
    [[Cell.num 0], [Cell.num 0], [Cell.num 3], [Cell.num 0], [Cell.num 0], [Cell.num 4]]
    ⟨0, 0⟩ (by decide) (by decide) (by decide)
